import Mathlib

/-!
Verification of the ALSA Use-Case Manager (UCM) core against its
natural-language specification.  The public surface is declared in
`src/include/use-case.h`; the engine behind it (object store, identifier
resolver, state engine, sequencer) is modelled here.  Machine state is
explicit (`ActState`), hardware mutations are recorded as a trace of opaque
step strings, and fallible operations return an `OpResult` carrying an
optional error, the post state and the emitted trace.
-/

namespace AlsaUcm

/-- Error kinds of the engine (spec section 7). -/
inductive Err where
  | UnknownIdentifier
  | NotFound
  | UnknownVerb
  | UnknownDevice
  | UnknownModifier
  | NotInActiveVerb
  | ConflictCascade
  | ConfigurationInvalid
deriving DecidableEq, Repr

/-- A hardware control-mutation step; opaque to the core, modelled as a
string naming the control operation. -/
abbrev Step := String

/-- A Device or a Modifier: both have the same shape (priority, values,
enable/disable sequences, supported/conflicting device-name lists, and
transition sequences keyed by the target object's name). -/
structure DevMod where
  name : String
  comment : String := ""
  enableSeq : List Step := []
  disableSeq : List Step := []
  supportedDevs : List String := []
  conflictingDevs : List String := []
  transitions : List (String × List Step) := []
  values : List (String × String) := []
deriving DecidableEq, Repr

/-- A use-case verb: its own sequences and values plus the devices and
modifiers valid only within it. -/
structure Verb where
  name : String
  comment : String := ""
  enableSeq : List Step := []
  disableSeq : List Step := []
  devices : List DevMod := []
  modifiers : List DevMod := []
  values : List (String × String) := []
deriving DecidableEq, Repr

/-- A card's object store: verbs and the card-level ValueDefaults scope.
Immutable once loaded. -/
structure Card where
  name : String
  comment : String := ""
  verbs : List Verb := []
  valueDefaults : List (String × String) := []
deriving DecidableEq, Repr

/-- The mutable activation state: current verb plus the enabled device and
modifier names with their reference counts. -/
structure ActState where
  curVerb : Option String := none
  enaDevs : List (String × Nat) := []
  enaMods : List (String × Nat) := []
deriving DecidableEq, Repr

/-- Device or Modifier selector for the state-engine operations. -/
inductive Kind where
  | device
  | modifier
deriving DecidableEq, Repr

/-- First value bound to a key in an association list. -/
def vlookup : List (String × α) → String → Option α
  | [], _ => none
  | (k, v) :: rest, n => if k = n then some v else vlookup rest n

/-- First declared object with the given name. -/
def findDM : List DevMod → String → Option DevMod
  | [], _ => none
  | d :: rest, n => if d.name = n then some d else findDM rest n

/-- First declared verb with the given name. -/
def findVerb (c : Card) (n : String) : Option Verb :=
  go c.verbs n
where
  go : List Verb → String → Option Verb
  | [], _ => none
  | v :: rest, n => if v.name = n then some v else go rest n

/-- Membership test on a list of names. -/
def hasName : List String → String → Bool
  | [], _ => false
  | x :: rest, n => if x = n then true else hasName rest n

/-- Concatenation of the lists produced by `f` over a list, in order. -/
def seqcat (f : α → List β) : List α → List β
  | [] => []
  | a :: rest => f a ++ seqcat f rest

/-- The declared objects of the given kind under a verb. -/
def decls (v : Verb) : Kind → List DevMod
  | .device => v.devices
  | .modifier => v.modifiers

/-- The enabled-set (with reference counts) of the given kind. -/
def enaOf (s : ActState) : Kind → List (String × Nat)
  | .device => s.enaDevs
  | .modifier => s.enaMods

/-- Replace the enabled-set of the given kind. -/
def setEna (s : ActState) : Kind → List (String × Nat) → ActState
  | .device, l => { s with enaDevs := l }
  | .modifier, l => { s with enaMods := l }

/-- Reference count of a name (0 when absent). -/
def countOf (s : ActState) (k : Kind) (n : String) : Nat :=
  (vlookup (enaOf s k) n).getD 0

/-- Result of a mutating operation: optional error, the post activation
state, and the ordered trace of steps handed to the Control Executor. -/
structure OpResult where
  err : Option Err
  state : ActState
  trace : List Step
deriving DecidableEq, Repr

/-- An enabled object `other` conflicts with enabling `n` when `other`'s
`ConflictingDevices` lists `n`, or `other`'s `SupportedDevices` is
non-empty and excludes `n` (spec section 4.3). -/
def conflictsWith (other : DevMod) (n : String) : Bool :=
  hasName other.conflictingDevs n ||
    (!other.supportedDevs.isEmpty && !hasName other.supportedDevs n)

/-- Whether the enabled entry `p` (name, refcount) conflicts with enabling
`n` under verb `v`: a different name whose declaration conflicts with `n`.
Names without a declaration under the verb conflict with nothing (empty
lists mean compatible with all). -/
def isConf (v : Verb) (k : Kind) (n : String) (p : String × Nat) : Bool :=
  (if p.1 = n then false else true) &&
    (match findDM (decls v k) p.1 with
     | some d => conflictsWith d n
     | none => false)

/-- Disable sequence of the declared object named `m` under verb `v`
(empty when undeclared). -/
def disSeqOf (v : Verb) (k : Kind) (m : String) : List Step :=
  match findDM (decls v k) m with
  | some d => d.disableSeq
  | none => []

/-- Increment the count of an already-present name. -/
def incr : List (String × Nat) → String → List (String × Nat)
  | [], _ => []
  | (m, c) :: rest, n => if m = n then (m, c + 1) :: rest else (m, c) :: incr rest n

/-- Modelled from the spec: `enable(kind, name)` of the State Engine
(spec section 4.3); the implementation (`src/ucm`) is not part of the
source tree, only its contract in `use-case.h`.  Fails with
`NotInActiveVerb` when no verb is active or `name` is not declared under
it.  A positive reference count is merely incremented (no sequences).
Otherwise every currently-enabled conflicting name is disabled first,
single level: a cascade member whose reference count exceeds one cannot be
cleared by one disable, so the operation fails with `ConflictCascade`
before any step is issued.  All checks precede the first emitted step. -/
def enableOp (card : Card) (k : Kind) (n : String) (s : ActState) : OpResult :=
  match s.curVerb with
  | none => ⟨some .NotInActiveVerb, s, []⟩
  | some vn =>
    match findVerb card vn with
    | none => ⟨some .NotInActiveVerb, s, []⟩
    | some v =>
      match findDM (decls v k) n with
      | none => ⟨some .NotInActiveVerb, s, []⟩
      | some d =>
        let ena := enaOf s k
        if 0 < (vlookup ena n).getD 0 then
          ⟨none, setEna s k (incr ena n), []⟩
        else
          let confl := ena.filter (isConf v k n)
          if confl.any (fun p => 1 < p.2) then
            ⟨some .ConflictCascade, s, []⟩
          else
            let kept := ena.filter (fun p => !(isConf v k n p))
            ⟨none, setEna s k (kept ++ [(n, 1)]),
              seqcat (fun p => disSeqOf v k p.1) confl ++ d.enableSeq⟩

/-- Modelled from the spec: `disable(kind, name)` of the State Engine
(spec section 4.3); the implementation is not in the source tree.
Decrements the reference count when above one; at exactly one runs the
`DisableSequence` and removes the name; absent names are a no-op
success. -/
def disableOp (card : Card) (k : Kind) (n : String) (s : ActState) : OpResult :=
  let ena := enaOf s k
  match vlookup ena n with
  | none => ⟨none, s, []⟩
  | some c =>
    if 1 < c then
      ⟨none, setEna s k (ena.map (fun p => if p.1 = n then (p.1, p.2 - 1) else p)), []⟩
    else
      let tr :=
        match s.curVerb with
        | none => []
        | some vn =>
          match findVerb card vn with
          | none => []
          | some v => disSeqOf v k n
      ⟨none, setEna s k (ena.filter (fun p => !(p.1 = n : Bool))), tr⟩

/-- `switch(kind, old, new)`, per the contract of `_swdev`/`_swmod` in
`use-case.h` (disable `old` then enable `new`; if `old` is not enabled
just return; check the transition sequence first) together with the spec's
section 4.3 for the transition-sequence path.  Validity and conflict
checks of the enable side run before any step is issued (spec section 5),
so a failing enable side aborts the whole switch with no mutation. -/
def switchOp (card : Card) (k : Kind) (o n : String) (s : ActState) : OpResult :=
  if (vlookup (enaOf s k) o).getD 0 = 0 then
    ⟨none, s, []⟩
  else
    match s.curVerb with
    | none => ⟨some .NotInActiveVerb, s, []⟩
    | some vn =>
      match findVerb card vn with
      | none => ⟨some .NotInActiveVerb, s, []⟩
      | some v =>
        match findDM (decls v k) o with
        | none => ⟨some .NotInActiveVerb, s, []⟩
        | some od =>
          match vlookup od.transitions n with
          | some tseq =>
            let ena := enaOf s k
            let kept := ena.filter (fun p => !(p.1 = o : Bool))
            ⟨none, setEna s k (kept ++ [(n, 1)]), tseq⟩
          | none =>
            let r1 := disableOp card k o s
            let r2 := enableOp card k n r1.state
            match r2.err with
            | some e => ⟨some e, s, []⟩
            | none => ⟨none, r2.state, r1.trace ++ r2.trace⟩

/-- Modelled from the spec: the trace of the tear-down phase of a verb
change (spec section 4.2): the `DisableSequence`s of all currently
enabled modifiers first, then of all currently enabled devices of the old
verb; the implementation is not in the source tree. -/
def teardownTrace (card : Card) (s : ActState) : List Step :=
  match s.curVerb with
  | none => []
  | some ovn =>
    match findVerb card ovn with
    | none => []
    | some ov =>
      seqcat (fun p => disSeqOf ov .modifier p.1) s.enaMods ++
        seqcat (fun p => disSeqOf ov .device p.1) s.enaDevs

/-- Modelled from the spec: `set_verb(name)` of the State Engine (spec
section 4.2); the implementation is not in the source tree.  `"Inactive"`
(`SND_USE_CASE_VERB_INACTIVE`) disables everything and leaves no verb
active; an undeclared name fails with `UnknownVerb` before any mutation;
otherwise the engine disables all enabled modifiers then devices of the
old verb, moves to the new verb with empty sets and runs its
`EnableSequence`.  Re-setting the already-active verb is a no-op. -/
def setVerbOp (card : Card) (vn : String) (s : ActState) : OpResult :=
  if vn = "Inactive" then
    ⟨none, ⟨none, [], []⟩, teardownTrace card s⟩
  else
    match findVerb card vn with
    | none => ⟨some .UnknownVerb, s, []⟩
    | some v =>
      if s.curVerb = some vn then
        ⟨none, s, []⟩
      else
        ⟨none, ⟨some vn, [], []⟩, teardownTrace card s ++ v.enableSeq⟩

/-- A mutating State Engine operation. -/
inductive Op where
  | setVerb (vn : String)
  | enable (k : Kind) (n : String)
  | disable (k : Kind) (n : String)
  | switch (k : Kind) (o n : String)
deriving DecidableEq, Repr

/-- Dispatch a mutating operation against a card's object store. -/
def runOp (card : Card) : Op → ActState → OpResult
  | .setVerb vn, s => setVerbOp card vn s
  | .enable k n, s => enableOp card k n s
  | .disable k n, s => disableOp card k n s
  | .switch k o n, s => switchOp card k o n s

/-- The validation errors, detected before any mutation (spec section 7). -/
def Err.isValidation : Err → Bool
  | .UnknownIdentifier => true
  | .UnknownVerb => true
  | .UnknownDevice => true
  | .UnknownModifier => true
  | .NotInActiveVerb => true
  | .ConflictCascade => true
  | .NotFound => false
  | .ConfigurationInvalid => false

/-- Split a reversed character list into its maximal decimal-digit head
and the rest. -/
def takeDigits : List Char → List Char × List Char
  | [] => ([], [])
  | c :: rest =>
    if c.isDigit then
      let p := takeDigits rest
      (c :: p.1, p.2)
    else
      ([], c :: rest)

/-- Decimal value of a digit list (most significant first). -/
def digitsVal (l : List Char) : Nat :=
  l.foldl (fun a c => a * 10 + (c.toNat - 48)) 0

/-- Group key of a device/modifier name, per the naming rules documented
in `use-case.h`: a trailing decimal number is the suffix, and one optional
space before it is dropped from the base, so that names such as
`"Line 1"` and `"Line1"` fall into the same group.  Names without a
numeric suffix are their own group. -/
def parseSuffix (n : String) : Option (String × Nat) :=
  let p := takeDigits n.data.reverse
  if p.1 = [] then
    none
  else
    let base :=
      match p.2 with
      | ' ' :: r => r.reverse
      | r => r.reverse
    some (String.mk base, digitsVal p.1.reverse)

/-- Whether a list of declared names satisfies the contiguity rule of
`use-case.h`: for every name with numeric suffix `m`, every suffix
`1, ..., m-1` is also present in the same group (no number gaps). -/
def namesContiguous (names : List String) : Bool :=
  names.all fun n =>
    match parseSuffix n with
    | none => true
    | some (b, m) =>
      (List.range' 1 (m - 1)).all fun k =>
        names.any fun n2 => parseSuffix n2 = some (b, k)

/-- Well-formedness of one device/modifier declaration: at most one of
`SupportedDevices` / `ConflictingDevices` is non-empty (`use-case.h`,
note under `snd_use_case_get_list`). -/
def dmWellFormed (d : DevMod) : Bool :=
  d.supportedDevs.isEmpty || d.conflictingDevs.isEmpty

/-- Modelled from the spec: load-time validation of a parsed object store
(spec sections 3 and 7); the loader implementation is not in the source
tree.  Checks, per verb, the supported/conflicting exclusivity of every
device and modifier and the contiguous numeric-suffix rule for the device
and the modifier name groups. -/
def validateCard (c : Card) : Bool :=
  c.verbs.all fun v =>
    v.devices.all dmWellFormed && v.modifiers.all dmWellFormed &&
      namesContiguous (v.devices.map (fun d => d.name)) &&
      namesContiguous (v.modifiers.map (fun d => d.name))

/-- An open use-case manager: the immutable object store, the mutable
activation state, and the per-card metadata exposed by
`snd_use_case_get` (`_file`, `_alibcfg`, `_alibpref`). -/
structure Mgr where
  card : Card
  state : ActState := {}
  file : String := ""
  alibcfg : String := ""
  alibpref : String := ""
deriving DecidableEq, Repr

/-- Modelled from the spec: `snd_use_case_mgr_open` after the external
Configuration Loader produced the object store `c`; the implementation is
not in the source tree.  A store violating a section-3 invariant is
rejected with `ConfigurationInvalid` at load time; otherwise the manager
starts with an empty activation state. -/
def mgrOpen (c : Card) (file alibcfg alibpref : String) : Except Err Mgr :=
  if validateCard c then
    .ok ⟨c, {}, file, alibcfg, alibpref⟩
  else
    .error .ConfigurationInvalid

/-- Modelled from the spec: `snd_use_case_mgr_reload` (spec section 5)
after the external Loader produced the replacement store `c`; the
implementation is not in the source tree.  The new store goes through the
same load-time validation as open; on success it atomically replaces the
old store and clears the ActivationState, while `ConfigurationInvalid`
aborts the reload (the caller keeps the previous manager intact). -/
def mgrReload (m : Mgr) (c : Card) : Except Err Mgr :=
  if validateCard c then
    .ok ⟨c, {}, m.file, m.alibcfg, m.alibpref⟩
  else
    .error .ConfigurationInvalid

/-- Run a mutating operation on a manager, returning the updated manager
(the object store is carried over unchanged), the optional error and the
emitted trace. -/
def applyOp (m : Mgr) (op : Op) : Mgr × Option Err × List Step :=
  let r := runOp m.card op m.state
  (⟨m.card, r.state, m.file, m.alibcfg, m.alibpref⟩, r.err, r.trace)

/-- Split a character list at every slash; n slashes yield n+1 parts. -/
def splitSlash : List Char → List (List Char)
  | [] => [[]]
  | c :: rest =>
    if c = '/' then
      [] :: splitSlash rest
    else
      match splitSlash rest with
      | [] => [[c]]
      | h :: t => (c :: h) :: t

/-- A section of a value identifier: absent, present but empty, or a
name.  An empty section selects the current active object while an absent
one widens the search (per the examples in `use-case.h`: `"=Var"` reads
`ValueDefaults` only, `"=Var//"` the current active verb). -/
inductive Sect where
  | missing
  | empty
  | named (s : String)
deriving DecidableEq, Repr

/-- A parsed value identifier `[=]{NAME}[/[{modifier}|{device}]][/{verb}]`. -/
structure Ident where
  exact : Bool
  key : String
  obj : Sect
  verb : Sect
deriving DecidableEq, Repr

/-- Strip a leading exactness marker. -/
def stripEq : List Char → Bool × List Char
  | [] => (false, [])
  | c :: rest => if c = '=' then (true, rest) else (false, c :: rest)

/-- A slash-separated part as a section (empty part = empty section). -/
def toSect (l : List Char) : Sect :=
  if l = [] then .empty else .named (String.mk l)

/-- Parse a value identifier per the grammar documented at
`snd_use_case_get` in `use-case.h`.  More than two slashes, or an empty
value name, is malformed. -/
def parseIdent (s : String) : Option Ident :=
  let p := stripEq s.data
  match splitSlash p.2 with
  | [n] => if n = [] then none else some ⟨p.1, String.mk n, .missing, .missing⟩
  | [n, o] => if n = [] then none else some ⟨p.1, String.mk n, toSect o, .missing⟩
  | [n, o, v] => if n = [] then none else some ⟨p.1, String.mk n, toSect o, toSect v⟩
  | _ => none

/-- Key lookup in one `Values` scope, as a query result: a missing key is
the non-fatal `NotFound`. -/
def keyLookup (l : List (String × String)) (k : String) : Except Err String :=
  match vlookup l k with
  | some x => .ok x
  | none => .error .NotFound

/-- Fall through to the second scope only on `NotFound`. -/
def orNF (a b : Except Err String) : Except Err String :=
  match a with
  | .error .NotFound => b
  | r => r

/-- The object named by a modifier-or-device qualifier under a verb:
modifiers are searched before devices. -/
def findObj (v : Verb) (n : String) : Option DevMod :=
  match findDM v.modifiers n with
  | some d => some d
  | none => findDM v.devices n

/-- The verb scope an identifier names: a named verb section must be
declared (`UnknownVerb` otherwise); an empty or absent one selects the
currently active verb, if any. -/
def verbCtx (m : Mgr) (i : Ident) : Except Err (Option Verb) :=
  match i.verb with
  | .named vn =>
    match findVerb m.card vn with
    | some v => .ok (some v)
    | none => .error .UnknownVerb
  | _ =>
    .ok (match m.state.curVerb with
         | some vn => findVerb m.card vn
         | none => none)

/-- First value bound to `key` among the currently enabled objects drawn
from `declared`, scanning the enabled list in order. -/
def scanEna (declared : List DevMod) (key : String) :
    List (String × Nat) → Option String
  | [] => none
  | (n, _) :: rest =>
    match findDM declared n with
    | some d =>
      match vlookup d.values key with
      | some x => some x
      | none => scanEna declared key rest
    | none => scanEna declared key rest

/-- Modelled from the spec: scalar value resolution for a parsed
identifier (spec section 4.1 and the search order documented at
`snd_use_case_get`); the resolver implementation is not in the source
tree.  Exact queries read one single scope; otherwise the named (or
active) modifier/device scope is searched first, then the verb scope,
then `ValueDefaults`, first hit wins, no merging. -/
def resolveIdent (m : Mgr) (i : Ident) : Except Err String :=
  match verbCtx m i with
  | .error e => .error e
  | .ok vo =>
    if i.exact then
      match i.obj with
      | .named obn =>
        match vo with
        | none => .error .UnknownVerb
        | some v =>
          match findObj v obn with
          | some d => keyLookup d.values i.key
          | none => .error .UnknownDevice
      | _ =>
        match i.verb with
        | .missing => keyLookup m.card.valueDefaults i.key
        | _ =>
          match vo with
          | some v => keyLookup v.values i.key
          | none => .error .UnknownVerb
    else
      match i.obj with
      | .named obn =>
        match vo with
        | none => .error .UnknownDevice
        | some v =>
          match findObj v obn with
          | none => .error .UnknownDevice
          | some d =>
            orNF (keyLookup d.values i.key)
              (orNF (keyLookup v.values i.key)
                (keyLookup m.card.valueDefaults i.key))
      | _ =>
        match vo with
        | none => keyLookup m.card.valueDefaults i.key
        | some v =>
          let active :=
            match scanEna v.modifiers i.key m.state.enaMods with
            | some x => some x
            | none => scanEna v.devices i.key m.state.enaDevs
          orNF (match active with
                | some x => .ok x
                | none => .error .NotFound)
            (orNF (keyLookup v.values i.key)
              (keyLookup m.card.valueDefaults i.key))

/-- `snd_use_case_get`: a `NULL` identifier returns the current card
name; `_verb`, `_file`, `_alibcfg` and `_alibpref` are manager metadata
(per `use-case.h`); everything else goes through the value-identifier
grammar and the scoped search. -/
def ucGet (m : Mgr) (ident : Option String) : Except Err String :=
  match ident with
  | none => .ok m.card.name
  | some id =>
    if id = "_verb" then
      .ok ((m.state.curVerb).getD "Inactive")
    else if id = "_file" then
      .ok m.file
    else if id = "_alibcfg" then
      .ok m.alibcfg
    else if id = "_alibpref" then
      .ok m.alibpref
    else
      match parseIdent id with
      | none => .error .UnknownIdentifier
      | some i => resolveIdent m i

/-- The set of installed card configurations visible to the library
(name and comment pairs): the environment of `snd_use_case_get_list`
card enumeration. -/
structure UcmWorld where
  cards : List (String × String)
deriving DecidableEq, Repr

/-- Modelled from the spec: `snd_use_case_get_list` (contract in
`use-case.h`); the implementation is not in the source tree.  A `NULL`
manager or a `NULL` identifier yields the card list; `_verbs` the verb
list; `_devices[/verb]` and `_modifiers[/verb]` the declarations of the
named (or active) verb; `_enadevs`/`_enamods` the enabled names. -/
def ucGetList (w : UcmWorld) (mgr : Option Mgr) (ident : Option String) :
    Except Err (List (String × String)) :=
  match ident with
  | none => .ok w.cards
  | some id =>
    match mgr with
    | none => .ok w.cards
    | some m =>
      if id = "_verbs" then
        .ok (m.card.verbs.map (fun v => (v.name, v.comment)))
      else
        match splitSlash id.data with
        | [p] =>
          listQuery m (String.mk p) none
        | [p, vn] =>
          listQuery m (String.mk p) (some (String.mk vn))
        | _ => .error .UnknownIdentifier
where
  /-- The per-verb list queries of `snd_use_case_get_list`. -/
  listQuery (m : Mgr) (p : String) (vsel : Option String) :
      Except Err (List (String × String)) :=
    let vctx : Except Err Verb :=
      match vsel with
      | some vn =>
        match findVerb m.card vn with
        | some v => .ok v
        | none => .error .UnknownVerb
      | none =>
        match m.state.curVerb with
        | some vn =>
          match findVerb m.card vn with
          | some v => .ok v
          | none => .error .UnknownVerb
        | none => .error .UnknownVerb
    if p = "_devices" then
      match vctx with
      | .ok v => .ok (v.devices.map (fun d => (d.name, d.comment)))
      | .error e => .error e
    else if p = "_modifiers" then
      match vctx with
      | .ok v => .ok (v.modifiers.map (fun d => (d.name, d.comment)))
      | .error e => .error e
    else if p = "_enadevs" then
      .ok (m.state.enaDevs.map (fun q => (q.1, "")))
    else if p = "_enamods" then
      .ok (m.state.enaMods.map (fun q => (q.1, "")))
    else
      .error .UnknownIdentifier

/-- `snd_use_case_card_list` as defined inline in `use-case.h`: it
forwards to `snd_use_case_get_list(NULL, NULL, list)`. -/
def snd_use_case_card_list (w : UcmWorld) : Except Err (List (String × String)) :=
  ucGetList w none none

/-- `snd_use_case_verb_list` as defined inline in `use-case.h`: it
forwards to `snd_use_case_get_list(uc_mgr, "_verbs", list)`. -/
def snd_use_case_verb_list (w : UcmWorld) (m : Mgr) :
    Except Err (List (String × String)) :=
  ucGetList w (some m) (some "_verbs")

/-! ## Basic lemmas about the list helpers -/

theorem vlookup_eq_none_iff (l : List (String × α)) (n : String) :
    vlookup l n = none ↔ ∀ p ∈ l, p.1 ≠ n := by
  induction l with
  | nil => simp [vlookup]
  | cons p rest ih =>
    obtain ⟨k, v⟩ := p
    simp only [vlookup]
    split
    · simp_all
    · simp_all

theorem vlookup_mem {l : List (String × α)} {n : String} {c : α}
    (h : vlookup l n = some c) : (n, c) ∈ l := by
  induction l with
  | nil => simp [vlookup] at h
  | cons p rest ih =>
    obtain ⟨k, v⟩ := p
    simp only [vlookup] at h
    split at h
    · obtain ⟨rfl⟩ := h
      simp_all
    · exact List.mem_cons_of_mem _ (ih h)

theorem vlookup_append_none {l₁ : List (String × α)} {n : String}
    (h : vlookup l₁ n = none) (l₂ : List (String × α)) :
    vlookup (l₁ ++ l₂) n = vlookup l₂ n := by
  induction l₁ with
  | nil => simp
  | cons p rest ih =>
    obtain ⟨k, v⟩ := p
    simp only [vlookup, List.cons_append] at h ⊢
    split at h
    · exact absurd h (by simp)
    · simp_all [vlookup]

theorem vlookup_incr {l : List (String × Nat)} {n : String} {c : Nat}
    (h : vlookup l n = some c) : vlookup (incr l n) n = some (c + 1) := by
  induction l with
  | nil => simp [vlookup] at h
  | cons p rest ih =>
    obtain ⟨k, v⟩ := p
    simp only [vlookup, incr] at h ⊢
    split at h
    · obtain ⟨rfl⟩ := h
      simp_all [vlookup]
    · simp_all [vlookup]

theorem vlookup_map_decr {l : List (String × Nat)} {n : String} {c : Nat}
    (h : vlookup l n = some c) :
    vlookup (l.map (fun p => if p.1 = n then (p.1, p.2 - 1) else p)) n
      = some (c - 1) := by
  induction l with
  | nil => simp [vlookup] at h
  | cons p rest ih =>
    obtain ⟨k, v⟩ := p
    by_cases hk : k = n
    · subst hk
      simp only [vlookup, if_pos rfl] at h
      cases h
      have hf : (if (k, c).1 = k then ((k, c).1, (k, c).2 - 1) else (k, c))
          = (k, c - 1) := if_pos rfl
      rw [List.map_cons, hf]
      simp [vlookup]
    · simp only [vlookup, if_neg hk] at h
      have hf : (if (k, v).1 = n then ((k, v).1, (k, v).2 - 1) else (k, v))
          = (k, v) := if_neg hk
      rw [List.map_cons, hf]
      simp only [vlookup, if_neg hk]
      exact ih h

theorem vlookup_filter_self (l : List (String × α)) (n : String) :
    vlookup (l.filter (fun p => !(p.1 = n : Bool))) n = none := by
  rw [vlookup_eq_none_iff]
  intro p hp
  simpa using (List.mem_filter.1 hp).2

theorem seqcat_append (f : α → List β) (l₁ l₂ : List α) :
    seqcat f (l₁ ++ l₂) = seqcat f l₁ ++ seqcat f l₂ := by
  induction l₁ with
  | nil => simp [seqcat]
  | cons a rest ih => simp [seqcat, ih]

theorem hasName_eq_true_iff (l : List String) (n : String) :
    hasName l n = true ↔ n ∈ l := by
  induction l with
  | nil => simp [hasName]
  | cons x rest ih =>
    by_cases hx : x = n
    · subst hx
      simp [hasName]
    · simp only [hasName, if_neg hx, ih, List.mem_cons]
      constructor
      · exact fun h => Or.inr h
      · rintro (h | h)
        · exact absurd h.symm hx
        · exact h

/-! ## Lemmas about the identifier splitter -/

theorem splitSlash_no_slash {l : List Char} (h : '/' ∉ l) :
    splitSlash l = [l] := by
  induction l with
  | nil => simp [splitSlash]
  | cons c rest ih =>
    simp only [splitSlash]
    have hc : ¬(c = '/') := fun he => h (he ▸ List.mem_cons_self c rest)
    rw [if_neg hc, ih (fun hm => h (List.mem_cons_of_mem c hm))]

theorem splitSlash_append {l r : List Char} (h : '/' ∉ l) :
    splitSlash (l ++ '/' :: r) = l :: splitSlash r := by
  induction l with
  | nil => simp [splitSlash]
  | cons c rest ih =>
    have hc : ¬(c = '/') := fun he => h (he ▸ List.mem_cons_self c rest)
    have ih2 := ih (fun hm => h (List.mem_cons_of_mem c hm))
    show (if c = '/' then [] :: splitSlash (rest ++ '/' :: r)
          else
            match splitSlash (rest ++ '/' :: r) with
            | [] => [[c]]
            | h :: t => (c :: h) :: t)
        = (c :: rest) :: splitSlash r
    rw [if_neg hc, ih2]

/-! ## Concrete fixtures used by the witnesses -/

/-- Test device A: conflicts with B. -/
def devA : DevMod :=
  { name := "A", enableSeq := ["ea"], disableSeq := ["da"],
    conflictingDevs := ["B"] }

/-- Test device B: no conflicts, carries a device-scoped value for X. -/
def devB : DevMod :=
  { name := "B", enableSeq := ["eb"], disableSeq := ["db"],
    values := [("X", "dev-x")] }

/-- Test verb with devices A and B and a verb-scoped value for X. -/
def verbHiFi : Verb :=
  { name := "HiFi", enableSeq := ["ev"], disableSeq := ["dv"],
    devices := [devA, devB], values := [("X", "verb-x")] }

/-- Test card with one verb and a ValueDefaults entry for X. -/
def testCard : Card :=
  { name := "TestCard", verbs := [verbHiFi],
    valueDefaults := [("X", "def-x")] }

/-- Activation state with verb HiFi active and nothing enabled. -/
def st0 : ActState := { curVerb := some "HiFi" }

/-- Activation state with verb HiFi active and device A enabled once. -/
def stA : ActState := { curVerb := some "HiFi", enaDevs := [("A", 1)] }

/-- Test manager over `testCard` in state `st0`. -/
def testMgr : Mgr :=
  { card := testCard, state := st0, file := "ucm.conf",
    alibcfg := "cfg", alibpref := "pref" }

/-- A verb whose HDMI device group has a numeric-suffix gap (1, 3). -/
def hdmiVerb : Verb :=
  { name := "HiFi", devices := [{ name := "HDMI1" }, { name := "HDMI3" }] }

/-- A card whose HDMI device group has a numeric-suffix gap (1, 3). -/
def hdmiCard : Card :=
  { name := "HdmiCard", verbs := [hdmiVerb] }

/-- A verb whose Echo Reference modifier group has a numeric-suffix gap
(1, 3). -/
def echoVerb : Verb :=
  { name := "HiFi",
    modifiers := [{ name := "Echo Reference 1" }, { name := "Echo Reference 3" }] }

/-- A card whose Echo Reference modifier group has a numeric-suffix gap
(1, 3). -/
def echoCard : Card :=
  { name := "EchoCard", verbs := [echoVerb] }

/-! ## Structural facts about the operations -/

theorem enaOf_setEna (s : ActState) (k : Kind) (l : List (String × Nat)) :
    enaOf (setEna s k l) k = l := by
  cases k <;> rfl

theorem enableOp_err_atomic {card : Card} {k : Kind} {n : String} {s : ActState}
    {e : Err} (h : (enableOp card k n s).err = some e) :
    (enableOp card k n s).state = s ∧ (enableOp card k n s).trace = [] := by
  revert h
  simp only [enableOp]
  split
  · exact fun _ => ⟨rfl, rfl⟩
  · split
    · exact fun _ => ⟨rfl, rfl⟩
    · split
      · exact fun _ => ⟨rfl, rfl⟩
      · split
        · exact fun h => Option.noConfusion h
        · split
          · exact fun _ => ⟨rfl, rfl⟩
          · exact fun h => Option.noConfusion h

theorem disableOp_err_none (card : Card) (k : Kind) (n : String) (s : ActState) :
    (disableOp card k n s).err = none := by
  simp only [disableOp]
  split
  · rfl
  · split
    · rfl
    · rfl

theorem setVerbOp_err_atomic {card : Card} {vn : String} {s : ActState}
    {e : Err} (h : (setVerbOp card vn s).err = some e) :
    (setVerbOp card vn s).state = s ∧ (setVerbOp card vn s).trace = [] := by
  revert h
  simp only [setVerbOp]
  split
  · exact fun h => Option.noConfusion h
  · split
    · exact fun _ => ⟨rfl, rfl⟩
    · split
      · exact fun h => Option.noConfusion h
      · exact fun h => Option.noConfusion h

theorem switchOp_err_atomic {card : Card} {k : Kind} {o n : String} {s : ActState}
    {e : Err} (h : (switchOp card k o n s).err = some e) :
    (switchOp card k o n s).state = s ∧ (switchOp card k o n s).trace = [] := by
  revert h
  simp only [switchOp]
  repeat' split
  all_goals intro h
  all_goals first
    | exact Option.noConfusion h
    | exact ⟨rfl, rfl⟩

/-! ## Claim theorems -/

/-- C9: the inline helpers `snd_use_case_card_list` and
`snd_use_case_verb_list` of `use-case.h` are definitionally the
corresponding general list queries: the former returns exactly
`snd_use_case_get_list(NULL, NULL, list)` and the latter exactly
`snd_use_case_get_list(uc_mgr, "_verbs", list)`. -/
theorem C9_list_helpers_delegate (w : UcmWorld) (m : Mgr) :
    snd_use_case_card_list w = ucGetList w none none ∧
    snd_use_case_verb_list w m = ucGetList w (some m) (some "_verbs") :=
  ⟨rfl, rfl⟩

/-- C10: `snd_use_case_get` with a `NULL` identifier is not an error and
returns the current card name, and the reserved identifiers `_verb`,
`_file`, `_alibcfg` and `_alibpref` are accepted and resolved as manager
metadata, outside the value-search chain. -/
theorem C10_get_metadata (m : Mgr) :
    ucGet m none = .ok m.card.name ∧
    ucGet m (some "_verb") = .ok ((m.state.curVerb).getD "Inactive") ∧
    ucGet m (some "_file") = .ok m.file ∧
    ucGet m (some "_alibcfg") = .ok m.alibcfg ∧
    ucGet m (some "_alibpref") = .ok m.alibpref :=
  ⟨rfl, rfl, rfl, rfl, rfl⟩

/-- C4 (amended): per `use-case.h` (`_swdev/{old}`: "if old_device is not
enabled just return"), a switch whose old side is not currently enabled
returns success with the ActivationState unchanged and an empty step
trace — in particular it does not enable the new name and is therefore
not equivalent to a plain enable of the new name. -/
theorem C4_switch_noop_when_old_disabled (card : Card) (k : Kind) (o n : String)
    (s : ActState) (h : countOf s k o = 0) :
    switchOp card k o n s = ⟨none, s, []⟩ := by
  unfold countOf at h
  unfold switchOp
  rw [if_pos h]

/-- Witness for C4's amended theorem at a concrete card and state. -/
theorem C4_switch_noop_witness :
    countOf st0 .device "A" = 0 ∧
    switchOp testCard .device "A" "B" st0 = ⟨none, st0, []⟩ :=
  ⟨by decide, C4_switch_noop_when_old_disabled testCard .device "A" "B" st0 (by decide)⟩

/-- C4 counterexample: with device A not enabled, `switch(device, A, B)`
leaves the state unchanged while `enable(device, B)` enables B, so the
two end states differ — the claimed equivalence fails. -/
theorem C4_counterexample :
    countOf st0 .device "A" = 0 ∧
    (switchOp testCard .device "A" "B" st0).state
      ≠ (enableOp testCard .device "B" st0).state := by
  decide

/-- C3: reference-count semantics of enable/disable for a name declared
under the active verb: enable at positive count only increments (no
sequence steps); disable above one only decrements; disable at exactly
one runs the `DisableSequence` exactly once and removes the name; disable
of an absent name is a no-op success. -/
theorem C3_refcount_semantics (card : Card) (k : Kind) (n : String) (s : ActState)
    (vn : String) (v : Verb) (d : DevMod)
    (hcv : s.curVerb = some vn) (hv : findVerb card vn = some v)
    (hd : findDM (decls v k) n = some d) :
    (∀ c, vlookup (enaOf s k) n = some c → 0 < c →
      (enableOp card k n s).err = none ∧
      countOf (enableOp card k n s).state k n = c + 1 ∧
      (enableOp card k n s).trace = []) ∧
    (∀ c, vlookup (enaOf s k) n = some c → 1 < c →
      (disableOp card k n s).err = none ∧
      countOf (disableOp card k n s).state k n = c - 1 ∧
      (disableOp card k n s).trace = []) ∧
    (vlookup (enaOf s k) n = some 1 →
      (disableOp card k n s).err = none ∧
      (disableOp card k n s).trace = d.disableSeq ∧
      vlookup (enaOf (disableOp card k n s).state k) n = none) ∧
    (vlookup (enaOf s k) n = none →
      disableOp card k n s = ⟨none, s, []⟩) := by
  refine ⟨?_, ?_, ?_, ?_⟩
  · intro c hc hpos
    simp only [enableOp, hcv, hv, hd, hc, Option.getD_some, if_pos hpos]
    refine ⟨trivial, ?_, trivial⟩
    simp only [countOf, enaOf_setEna, vlookup_incr hc, Option.getD_some]
  · intro c hc hgt
    simp only [disableOp, hc, if_pos hgt]
    refine ⟨trivial, ?_, trivial⟩
    simp only [countOf, enaOf_setEna, vlookup_map_decr hc, Option.getD_some]
  · intro hc
    have hlt : ¬(1 < 1) := by omega
    simp only [disableOp, hc, if_neg hlt, hcv, hv]
    refine ⟨trivial, ?_, ?_⟩
    · simp [disSeqOf, hd]
    · simp only [enaOf_setEna, vlookup_filter_self]
  · intro hc
    simp only [disableOp, hc]

/-- Witness for C3 at a concrete card: enabling the already-enabled
device A bumps its count to 2 without steps; disabling it at count 1
emits exactly its `DisableSequence`. -/
theorem C3_refcount_witness :
    (enableOp testCard .device "A" stA).err = none ∧
    countOf (enableOp testCard .device "A" stA).state .device "A" = 2 ∧
    (enableOp testCard .device "A" stA).trace = [] ∧
    (disableOp testCard .device "A" stA).trace = ["da"] := by
  have h := C3_refcount_semantics testCard .device "A" stA "HiFi" verbHiFi devA
    rfl rfl rfl
  exact ⟨(h.1 1 rfl (by decide)).1, (h.1 1 rfl (by decide)).2.1,
    (h.1 1 rfl (by decide)).2.2, (h.2.2.1 rfl).2.1⟩

/-- C6: whenever a mutating operation (set_verb, enable, disable, switch)
returns a validation error, the ActivationState is unchanged and no
sequence step was issued: all checks precede the first emitted step. -/
theorem C6_validation_atomic (card : Card) (op : Op) (s : ActState) (e : Err)
    (herr : (runOp card op s).err = some e) (_hval : e.isValidation = true) :
    (runOp card op s).state = s ∧ (runOp card op s).trace = [] := by
  cases op with
  | setVerb vn => exact setVerbOp_err_atomic herr
  | enable k n => exact enableOp_err_atomic herr
  | disable k n =>
    exact absurd herr (by simp [runOp, disableOp_err_none])
  | switch k o n => exact switchOp_err_atomic herr

/-- Witness for C6: setting an undeclared verb fails with `UnknownVerb`
and leaves the state untouched with no steps. -/
theorem C6_validation_atomic_witness :
    (runOp testCard (.setVerb "Nope") st0).err = some .UnknownVerb ∧
    Err.UnknownVerb.isValidation = true ∧
    (runOp testCard (.setVerb "Nope") st0).state = st0 ∧
    (runOp testCard (.setVerb "Nope") st0).trace = [] := by
  have h := C6_validation_atomic testCard (.setVerb "Nope") st0 .UnknownVerb
    (by decide) (by decide)
  exact ⟨by decide, by decide, h.1, h.2⟩

/-- C5: changing to a declared verb disables everything (modifiers before
devices, via their `DisableSequence`s), transitions to the new verb with
empty sets and runs its `EnableSequence`; `"Inactive"` disables
everything and leaves no verb active; an undeclared name fails with
`UnknownVerb`.  The last conjunct pins the teardown order: all enabled
modifiers' disable sequences strictly precede all enabled devices'. -/
theorem C5_set_verb (card : Card) (vn : String) (s : ActState) :
    (∀ v, vn ≠ "Inactive" → findVerb card vn = some v → s.curVerb ≠ some vn →
      setVerbOp card vn s =
        ⟨none, ⟨some vn, [], []⟩, teardownTrace card s ++ v.enableSeq⟩) ∧
    (setVerbOp card "Inactive" s = ⟨none, ⟨none, [], []⟩, teardownTrace card s⟩) ∧
    (vn ≠ "Inactive" → findVerb card vn = none →
      setVerbOp card vn s = ⟨some .UnknownVerb, s, []⟩) ∧
    (∀ ovn ov, s.curVerb = some ovn → findVerb card ovn = some ov →
      teardownTrace card s =
        seqcat (fun p => disSeqOf ov .modifier p.1) s.enaMods ++
          seqcat (fun p => disSeqOf ov .device p.1) s.enaDevs) := by
  refine ⟨?_, ?_, ?_, ?_⟩
  · intro v hni hv hne
    simp only [setVerbOp, hni, if_false, hv, hne, ite_false]
  · simp [setVerbOp]
  · intro hni hv
    simp only [setVerbOp, hni, if_false, hv]
  · intro ovn ov hcv hov
    simp only [teardownTrace, hcv, hov]

/-- Witness for C5: a verb change, an `"Inactive"` change and an unknown
verb at a concrete card. -/
theorem C5_set_verb_witness :
    setVerbOp testCard "HiFi" { curVerb := none } =
      ⟨none, ⟨some "HiFi", [], []⟩, ["ev"]⟩ ∧
    setVerbOp testCard "Inactive" stA = ⟨none, ⟨none, [], []⟩, ["da"]⟩ ∧
    setVerbOp testCard "Nope" st0 = ⟨some .UnknownVerb, st0, []⟩ := by
  refine ⟨?_, ?_, ?_⟩
  · have h := (C5_set_verb testCard "HiFi" { curVerb := none }).1 verbHiFi
      (by decide) rfl (by simp)
    exact h.trans (by decide)
  · have h := (C5_set_verb testCard "Inactive" stA).2.1
    exact h.trans (by decide)
  · exact (C5_set_verb testCard "Nope" st0).2.2.1 (by decide) (by decide)

/-- C7: in any successfully opened object store, no device or modifier
has both `SupportedDevices` and `ConflictingDevices` non-empty; with both
empty the object conflicts with nothing (it is compatible with all
devices); and no operation mutates the store after load. -/
theorem C7_supported_conflicting_exclusive (c : Card) (f g h : String) (m : Mgr)
    (hopen : mgrOpen c f g h = .ok m) :
    (∀ v ∈ c.verbs, ∀ d, (d ∈ v.devices ∨ d ∈ v.modifiers) →
      (d.supportedDevs = [] ∨ d.conflictingDevs = []) ∧
      (d.supportedDevs = [] → d.conflictingDevs = [] →
        ∀ n2, conflictsWith d n2 = false)) ∧
    (∀ op, ((applyOp m op).1).card = m.card) := by
  have hvc : validateCard c = true := by
    cases hx : validateCard c
    · rw [mgrOpen, hx] at hopen
      simp at hopen
    · rfl
  constructor
  · intro v hv d hd
    have h1 := (List.all_eq_true).1 hvc v hv
    simp only [Bool.and_eq_true] at h1
    obtain ⟨⟨⟨hdev, hmod⟩, _⟩, _⟩ := h1
    have hwf : dmWellFormed d = true := by
      rcases hd with hd | hd
      · exact (List.all_eq_true).1 hdev d hd
      · exact (List.all_eq_true).1 hmod d hd
    constructor
    · rcases Bool.or_eq_true_iff.1 hwf with he | he
      · exact Or.inl (List.isEmpty_iff.1 he)
      · exact Or.inr (List.isEmpty_iff.1 he)
    · intro hs hc n2
      simp [conflictsWith, hs, hc, hasName]
  · intro op
    rfl

/-- Witness for C7 at a concrete card that opens successfully. -/
theorem C7_exclusive_witness :
    (devA.supportedDevs = [] ∨ devA.conflictingDevs = []) ∧
    ((applyOp ⟨testCard, {}, "f", "g", "h"⟩ (.enable .device "A")).1).card
      = testCard := by
  have h := C7_supported_conflicting_exclusive testCard "f" "g" "h"
    ⟨testCard, {}, "f", "g", "h"⟩ rfl
  exact ⟨(h.1 verbHiFi (by decide) devA (Or.inl (by decide))).1,
    h.2 (.enable .device "A")⟩

theorem namesContiguous_gap_false {names : List String} {n b : String}
    {m : Nat} (hn : n ∈ names) (hp : parseSuffix n = some (b, m)) {k : Nat}
    (hk1 : 1 ≤ k) (hkm : k < m)
    (hgap : ∀ n2 ∈ names, parseSuffix n2 ≠ some (b, k)) :
    namesContiguous names = false := by
  cases hx : namesContiguous names
  · rfl
  · exfalso
    have h2 := (List.all_eq_true).1 hx n hn
    rw [hp] at h2
    have h3 := (List.all_eq_true).1 h2 k (by rw [List.mem_range'_1]; omega)
    obtain ⟨n2, hn2, hd2⟩ := (List.any_eq_true).1 h3
    exact hgap n2 hn2 (of_decide_eq_true hd2)

/-- C8: a device or modifier name group of some verb whose numeric
suffixes have a gap (some suffix `k` with `1 ≤ k < m` missing while `m`
is present) makes the whole configuration fail at load time — both at
open and at reload — with `ConfigurationInvalid`; names differing only by
an optional space before the number (such as `"Line 1"` versus
`"Line1"`) are grouped identically. -/
theorem C8_suffix_gap_rejected (c : Card) (v : Verb) (hv : v ∈ c.verbs)
    (names : List String)
    (hnames : names = v.devices.map (fun d => d.name) ∨
      names = v.modifiers.map (fun d => d.name))
    (n b : String) (m : Nat) (hn : n ∈ names)
    (hp : parseSuffix n = some (b, m)) (k : Nat) (hk1 : 1 ≤ k) (hkm : k < m)
    (hgap : ∀ n2 ∈ names, parseSuffix n2 ≠ some (b, k)) :
    (∀ f g h, mgrOpen c f g h = .error .ConfigurationInvalid) ∧
    (∀ m0, mgrReload m0 c = .error .ConfigurationInvalid) ∧
    parseSuffix "Line 1" = parseSuffix "Line1" := by
  have hvc : validateCard c = false := by
    cases hx : validateCard c
    · rfl
    · exfalso
      have h1 := (List.all_eq_true).1 hx v hv
      simp only [Bool.and_eq_true] at h1
      obtain ⟨⟨⟨_, _⟩, hcd⟩, hcm⟩ := h1
      have hgapF := namesContiguous_gap_false hn hp hk1 hkm hgap
      rcases hnames with he | he
      · rw [he] at hgapF
        rw [hgapF] at hcd
        exact Bool.noConfusion hcd
      · rw [he] at hgapF
        rw [hgapF] at hcm
        exact Bool.noConfusion hcm
  refine ⟨?_, ?_, by decide⟩
  · intro f g h
    simp [mgrOpen, hvc]
  · intro m0
    simp [mgrReload, hvc]

/-- Witness for C8: the card declaring devices HDMI1 and HDMI3 (a gap at
2) is rejected at open, and the card declaring modifiers Echo Reference
1 and Echo Reference 3 is rejected at reload. -/
theorem C8_suffix_gap_witness :
    mgrOpen hdmiCard "" "" "" = .error .ConfigurationInvalid ∧
    mgrReload ⟨testCard, {}, "", "", ""⟩ echoCard
      = .error .ConfigurationInvalid := by
  have h1 := C8_suffix_gap_rejected hdmiCard hdmiVerb (by decide)
    (hdmiVerb.devices.map (fun d => d.name)) (Or.inl rfl) "HDMI3" "HDMI" 3
    (by decide) (by decide) 2 (by decide) (by decide) (by decide)
  have h2 := C8_suffix_gap_rejected echoCard echoVerb (by decide)
    (echoVerb.modifiers.map (fun d => d.name)) (Or.inr rfl)
    "Echo Reference 3" "Echo Reference" 3 (by decide) (by decide) 2
    (by decide) (by decide) (by decide)
  exact ⟨h1.1 "" "" "", h2.2.1 ⟨testCard, {}, "", "", ""⟩⟩

/-- C1: enabling B while a conflicting A is enabled (A's
`ConflictingDevices` lists B, or A's `SupportedDevices` is non-empty and
excludes B) first disables A and then enables B — A's `DisableSequence`
appears in the trace strictly before B's `EnableSequence` — and removes A
while B ends enabled with count 1; the cascade is single level, so when
disabling A cannot clear the conflict (its reference count is at least 2)
the operation fails with `ConflictCascade`. -/
theorem C1_conflict_resolution (card : Card) (k : Kind) (A B : String)
    (s : ActState) (vn : String) (v : Verb) (da db : DevMod) (cA : Nat)
    (hcv : s.curVerb = some vn)
    (hv : findVerb card vn = some v)
    (hdB : findDM (decls v k) B = some db)
    (hdA : findDM (decls v k) A = some da)
    (hAB : A ≠ B)
    (hBena : vlookup (enaOf s k) B = none)
    (hAena : vlookup (enaOf s k) A = some cA)
    (hconf : B ∈ da.conflictingDevs ∨
      (da.supportedDevs ≠ [] ∧ B ∉ da.supportedDevs)) :
    ((∀ p ∈ enaOf s k, isConf v k B p = true → p.2 ≤ 1) →
      (enableOp card k B s).err = none ∧
      vlookup (enaOf (enableOp card k B s).state k) A = none ∧
      vlookup (enaOf (enableOp card k B s).state k) B = some 1 ∧
      ∃ pre mid, (enableOp card k B s).trace
        = pre ++ da.disableSeq ++ mid ++ db.enableSeq) ∧
    (2 ≤ cA →
      enableOp card k B s = ⟨some .ConflictCascade, s, []⟩) := by
  have hcw : conflictsWith da B = true := by
    rcases hconf with hmem | ⟨hne, hnmem⟩
    · simp [conflictsWith, (hasName_eq_true_iff _ _).2 hmem]
    · have h1 : da.supportedDevs.isEmpty = false := by
        rw [Bool.eq_false_iff]
        intro hh
        exact hne (List.isEmpty_iff.1 hh)
      have h2 : hasName da.supportedDevs B = false := by
        rw [Bool.eq_false_iff]
        intro hh
        exact hnmem ((hasName_eq_true_iff _ _).1 hh)
      simp [conflictsWith, h1, h2]
  have hic : isConf v k B (A, cA) = true := by
    simp [isConf, hAB, hdA, hcw]
  have hmemA : (A, cA) ∈ enaOf s k := vlookup_mem hAena
  constructor
  · intro hcas
    have hany : ((enaOf s k).filter (isConf v k B)).any
        (fun p => decide (1 < p.2)) = false := by
      rw [List.any_eq_false]
      intro p hp
      obtain ⟨hpena, hpc⟩ := List.mem_filter.1 hp
      have hle := hcas p hpena hpc
      simp only [decide_eq_true_iff]
      omega
    simp only [enableOp, hcv, hv, hdB, hBena, Option.getD_none, Nat.lt_irrefl,
      if_false, hany, Bool.false_eq_true]
    refine ⟨trivial, ?_, ?_, ?_⟩
    · rw [enaOf_setEna]
      have hAkept : vlookup
          ((enaOf s k).filter (fun p => !(isConf v k B p))) A = none := by
        rw [vlookup_eq_none_iff]
        intro p hp hpA
        obtain ⟨hpena, hpneg⟩ := List.mem_filter.1 hp
        have : isConf v k B p = true := by
          have hpe : p = (A, p.2) := by
            rw [← hpA]
          rw [hpe]
          simp [isConf, hAB, hdA, hcw]
        simp [this] at hpneg
      rw [vlookup_append_none hAkept]
      simp [vlookup, Ne.symm hAB]
    · rw [enaOf_setEna]
      have hBkept : vlookup
          ((enaOf s k).filter (fun p => !(isConf v k B p))) B = none := by
        rw [vlookup_eq_none_iff]
        intro p hp
        exact (vlookup_eq_none_iff _ _).1 hBena p
          ((List.filter_sublist _).subset hp)
      rw [vlookup_append_none hBkept]
      simp [vlookup]
    · have hmemC : (A, cA) ∈ (enaOf s k).filter (isConf v k B) :=
        List.mem_filter.2 ⟨hmemA, hic⟩
      obtain ⟨l1, l2, hsplit⟩ := List.append_of_mem hmemC
      refine ⟨seqcat (fun p => disSeqOf v k p.1) l1,
        seqcat (fun p => disSeqOf v k p.1) l2, ?_⟩
      rw [hsplit, seqcat_append]
      simp [seqcat, disSeqOf, hdA, List.append_assoc]
  · intro hge2
    have hanyT : ((enaOf s k).filter (isConf v k B)).any
        (fun p => decide (1 < p.2)) = true :=
      List.any_eq_true.2 ⟨(A, cA), List.mem_filter.2 ⟨hmemA, hic⟩,
        by simp only [decide_eq_true_iff]; omega⟩
    simp only [enableOp, hcv, hv, hdB, hBena, Option.getD_none, Nat.lt_irrefl,
      if_false, hanyT, if_true]

/-- Witness for C1: at the test card, enabling B while the conflicting A
is enabled once disables A (its `DisableSequence` precedes B's
`EnableSequence`), while an A held twice aborts with `ConflictCascade`. -/
theorem C1_conflict_witness :
    (enableOp testCard .device "B" stA).err = none ∧
    vlookup (enaOf (enableOp testCard .device "B" stA).state .device) "A"
      = none ∧
    vlookup (enaOf (enableOp testCard .device "B" stA).state .device) "B"
      = some 1 ∧
    (∃ pre mid, (enableOp testCard .device "B" stA).trace
      = pre ++ devA.disableSeq ++ mid ++ devB.enableSeq) ∧
    enableOp testCard .device "B" { stA with enaDevs := [("A", 2)] }
      = ⟨some .ConflictCascade, { stA with enaDevs := [("A", 2)] }, []⟩ := by
  have h1 := C1_conflict_resolution testCard .device "A" "B" stA "HiFi"
    verbHiFi devA devB 1 rfl rfl rfl rfl (by decide) rfl rfl
    (Or.inl (by decide))
  have h2 := C1_conflict_resolution testCard .device "A" "B"
    { stA with enaDevs := [("A", 2)] } "HiFi" verbHiFi devA devB 2
    rfl rfl rfl rfl (by decide) rfl rfl (Or.inl (by decide))
  have ha := h1.1 (by decide)
  exact ⟨ha.1, ha.2.1, ha.2.2.1, ha.2.2.2, h2.2 (by omega)⟩

/-! ## Parsing lemmas for the value-identifier grammar -/

theorem stripEq_append_no {l : List Char} (h1 : l ≠ [])
    (h2 : l.head? ≠ some '=') (r : List Char) :
    stripEq (l ++ r) = (false, l ++ r) := by
  cases l with
  | nil => exact absurd rfl h1
  | cons c rest =>
    have hc : ¬(c = '=') := fun he => h2 (by simp [he])
    simp [stripEq, hc]

theorem stripEq_marker (l : List Char) : stripEq ('=' :: l) = (true, l) := by
  simp [stripEq]

theorem toSect_named {l : List Char} (h : l ≠ []) :
    toSect l = .named (String.mk l) := by
  simp [toSect, h]

theorem ucGet_resolve (m : Mgr) (s : String)
    (h : '/' ∈ s.data ∨ s.data.head? = some '=') :
    ucGet m (some s) =
      (match parseIdent s with
       | none => .error .UnknownIdentifier
       | some i => resolveIdent m i) := by
  have h1 : s ≠ "_verb" := by
    intro he
    subst he
    rcases h with h | h
    · exact absurd h (by decide)
    · exact absurd h (by decide)
  have h2 : s ≠ "_file" := by
    intro he
    subst he
    rcases h with h | h
    · exact absurd h (by decide)
    · exact absurd h (by decide)
  have h3 : s ≠ "_alibcfg" := by
    intro he
    subst he
    rcases h with h | h
    · exact absurd h (by decide)
    · exact absurd h (by decide)
  have h4 : s ≠ "_alibpref" := by
    intro he
    subst he
    rcases h with h | h
    · exact absurd h (by decide)
    · exact absurd h (by decide)
  simp only [ucGet, h1, h2, h3, h4, if_false]

/-- C2: the scalar value search: a device-qualified, non-exact query
resolves through exactly the chain device `Values`, then verb `Values`,
then `ValueDefaults` (first hit, no merging), so with a value X defined
in all three scopes the device-scoped query returns the device-scope hit;
the exact query `=X//Verb` returns the verb-scope hit only; and the exact
query `=X` returns the `ValueDefaults` hit only. -/
theorem C2_value_search_order (m : Mgr) (X dn vn : String) (V : Verb)
    (D : DevMod) (v1 v2 v3 : String)
    (hX1 : X.data ≠ []) (hX2 : '/' ∉ X.data) (hXeq : X.data.head? ≠ some '=')
    (hd1 : dn.data ≠ []) (hd2 : '/' ∉ dn.data)
    (hv1 : vn.data ≠ []) (hv2 : '/' ∉ vn.data)
    (hfv : findVerb m.card vn = some V)
    (hfd : findObj V dn = some D)
    (hD : vlookup D.values X = some v1)
    (hV : vlookup V.values X = some v2)
    (hdef : vlookup m.card.valueDefaults X = some v3) :
    ucGet m (some (X ++ "/" ++ dn ++ "/" ++ vn)) =
      orNF (keyLookup D.values X)
        (orNF (keyLookup V.values X) (keyLookup m.card.valueDefaults X)) ∧
    ucGet m (some (X ++ "/" ++ dn ++ "/" ++ vn)) = .ok v1 ∧
    ucGet m (some ("=" ++ X ++ "//" ++ vn)) = .ok v2 ∧
    ucGet m (some ("=" ++ X)) = .ok v3 := by
  have hmk : ∀ t : String, String.mk t.data = t := fun _ => rfl
  have hslash : ("/" : String).data = ['/'] := rfl
  have hdata1 : (X ++ "/" ++ dn ++ "/" ++ vn).data
      = X.data ++ '/' :: (dn.data ++ '/' :: vn.data) := by
    simp [String.data_append, hslash, List.append_assoc]
  have hp1 : parseIdent (X ++ "/" ++ dn ++ "/" ++ vn)
      = some ⟨false, X, .named dn, .named vn⟩ := by
    simp only [parseIdent, hdata1, stripEq_append_no hX1 hXeq,
      splitSlash_append hX2, splitSlash_append hd2, splitSlash_no_slash hv2,
      hX1, if_false, toSect_named hd1, toSect_named hv1, hmk]
  have hdata2 : ("=" ++ X ++ "//" ++ vn).data
      = '=' :: (X.data ++ '/' :: ('/' :: vn.data)) := by
    simp [String.data_append, show ("=" : String).data = ['='] from rfl,
      show ("//" : String).data = ['/', '/'] from rfl, List.append_assoc]
  have hp2 : parseIdent ("=" ++ X ++ "//" ++ vn)
      = some ⟨true, X, .empty, .named vn⟩ := by
    simp [parseIdent, hdata2, stripEq_marker, splitSlash_append hX2,
      splitSlash, splitSlash_no_slash hv2, hX1, toSect, hv1, hmk]
  have hdata3 : ("=" ++ X).data = '=' :: X.data := by
    simp [String.data_append, show ("=" : String).data = ['='] from rfl]
  have hp3 : parseIdent ("=" ++ X) = some ⟨true, X, .missing, .missing⟩ := by
    simp only [parseIdent, hdata3, stripEq_marker, splitSlash_no_slash hX2,
      hX1, if_false, hmk]
  have hr1 : resolveIdent m ⟨false, X, .named dn, .named vn⟩
      = orNF (keyLookup D.values X)
          (orNF (keyLookup V.values X) (keyLookup m.card.valueDefaults X)) := by
    simp only [resolveIdent, verbCtx, hfv, hfd, Bool.false_eq_true, if_false]
  have hr2 : resolveIdent m ⟨true, X, .empty, .named vn⟩ = .ok v2 := by
    simp [resolveIdent, verbCtx, hfv, keyLookup, hV]
  have hr3 : resolveIdent m ⟨true, X, .missing, .missing⟩ = .ok v3 := by
    simp [resolveIdent, verbCtx, keyLookup, hdef]
  have hu1 := ucGet_resolve m (X ++ "/" ++ dn ++ "/" ++ vn)
    (Or.inl (by rw [hdata1]; exact List.mem_append_right _ (List.mem_cons_self _ _)))
  have hu2 := ucGet_resolve m ("=" ++ X ++ "//" ++ vn)
    (Or.inr (by rw [hdata2]; rfl))
  have hu3 := ucGet_resolve m ("=" ++ X)
    (Or.inr (by rw [hdata3]; rfl))
  rw [hp1] at hu1
  rw [hp2] at hu2
  rw [hp3] at hu3
  refine ⟨hu1.trans hr1, ?_, hu2.trans hr2, hu3.trans hr3⟩
  rw [hu1.trans hr1]
  simp [orNF, keyLookup, hD]

/-- Witness for C2 at the test manager, where X is defined at device,
verb and defaults scope. -/
theorem C2_value_search_witness :
    ucGet testMgr (some "X/B/HiFi") = .ok "dev-x" ∧
    ucGet testMgr (some "=X//HiFi") = .ok "verb-x" ∧
    ucGet testMgr (some "=X") = .ok "def-x" := by
  have h := C2_value_search_order testMgr "X" "B" "HiFi" verbHiFi devB
    "dev-x" "verb-x" "def-x" (by decide) (by decide) (by decide) (by decide)
    (by decide) (by decide) (by decide) rfl rfl rfl rfl rfl
  exact ⟨h.2.1, h.2.2.1, h.2.2.2⟩

end AlsaUcm
